import Mathlib

/-!
Verification of the session-relay engine of `src/background.js` (OpenClaw
browser relay extension).  The JavaScript module is shallowly embedded:

* a JS `Map` is an insertion-ordered association list (`mapGet`, `mapSet`,
  `mapDelete`, `mapHas` reproduce `Map.get/set/delete/has`: `set` updates an
  existing key in place, otherwise appends at the end);
* JS truthiness on the values that actually flow through the code is made
  explicit (`0`, `''`, `undefined`/`null` are falsy);
* calls into the external collaborators (`chrome.debugger`, `chrome.tabs`,
  the WebSocket relay) are oracle parameters: each call site receives the
  collaborator's outcome as an explicit argument, and the visible calls are
  recorded in an effect list;
* the module-level mutable bindings (`tabs`, `tabBySession`,
  `childSessionToTab`, `pending`, `nextSession`, `reattachTimers`,
  `globalEnabled`, the live relay handle) are gathered into one state
  record `St`.
-/

namespace OpenClaw

/-! ### JS `Map` as an insertion-ordered association list -/

def mapGet {α β : Type} [DecidableEq α] : List (α × β) → α → Option β
  | [], _ => none
  | e :: tl, k => if e.1 = k then some e.2 else mapGet tl k

def mapHas {α β : Type} [DecidableEq α] (m : List (α × β)) (k : α) : Bool :=
  (mapGet m k).isSome

/-- JS `Map.set`: update the first matching key in place, else append. -/
def mapSet {α β : Type} [DecidableEq α] : List (α × β) → α → β → List (α × β)
  | [], k, v => [(k, v)]
  | e :: tl, k, v => if e.1 = k then (k, v) :: tl else e :: mapSet tl k v

def mapDelete {α β : Type} [DecidableEq α] : List (α × β) → α → List (α × β)
  | [], _ => []
  | e :: tl, k => if e.1 = k then mapDelete tl k else e :: mapDelete tl k

/-! ### JS primitive helpers -/

/-- JS truthiness of a possibly-absent string (`undefined` and `''` falsy). -/
def truthyStr : Option String → Bool
  | some s => s ≠ ""
  | none => false

/-- JS truthiness of a possibly-absent number (`undefined` and `0` falsy). -/
def truthyNat : Option Nat → Bool
  | some n => n ≠ 0
  | none => false

/-- Embeds `x || y` on tab-id values (`null`/`undefined`/`0` fall through). -/
def jsOrNat (a b : Option Nat) : Option Nat := if truthyNat a then a else b

/-- Embeds `String.prototype.trim()`, modelled on the character list. -/
def jsTrim (s : String) : String :=
  ⟨((s.data.dropWhile Char.isWhitespace).reverse.dropWhile
      Char.isWhitespace).reverse⟩

/-- Embeds `String.prototype.startsWith(p)`. -/
def jsStartsWith (s p : String) : Bool := p.data.isPrefixOf s.data

/-- Value of a decimal digit character. -/
def digitVal (c : Char) : Nat := c.toNat - '0'.toNat

/-- Embeds `Number.parseInt(s, 10)`: skip leading whitespace, optional sign, longest
digit prefix; `none` models `NaN` (no digit found). -/
def parseIntJs (s : String) : Option Int :=
  let cs := s.data.dropWhile Char.isWhitespace
  let neg : Bool := match cs with | c :: _ => c = '-' | [] => false
  let plus : Bool := match cs with | c :: _ => c = '+' | [] => false
  let rest := if neg || plus then cs.tail else cs
  let digits := rest.takeWhile Char.isDigit
  if digits.isEmpty then none
  else
    let v : Nat := digits.foldl (fun a c => a * 10 + digitVal c) 0
    some (if neg then -(v : Int) else (v : Int))

/-! ### Decimal rendering of `Nat` round-trips

The extension mints session ids as `` `cb-tab-${nextSession++}` `` and
stringifies stored numbers; both need that the decimal rendering used by
`Nat.repr` is injective and parses back.  We prove the round trip for the
core `Nat.toDigits`. -/

def digitsVal (l : List Char) : Nat := l.foldl (fun a c => a * 10 + digitVal c) 0

/-! ### Data model (src/background.js:10-31, 478-479) -/

inductive TabState
  | connecting
  | connected
deriving DecidableEq, Repr

/-- One entry of the `tabs` map:
`{state, sessionId?, targetId?, attachOrder?}`. -/
structure TabRec where
  state : TabState
  sessionId : Option String := none
  targetId : Option String := none
  attachOrder : Option Nat := none
deriving DecidableEq, Repr

/-- The module-level mutable state of `background.js`.
`relayConnected` models `relayWs !== null && relayWs.readyState === OPEN`;
`retryTimer` whether the 3-second reconnect timer is set;
`reattachTimers` maps a tab id to the delay of its pending retry timer. -/
structure St where
  globalEnabled : Bool := true
  relayConnected : Bool := true
  retryTimer : Bool := false
  nextSession : Nat := 1
  tabs : List (Nat × TabRec) := []
  tabBySession : List (String × Nat) := []
  childSessionToTab : List (String × Nat) := []
  pending : List (Int × Unit) := []
  reattachTimers : List (Nat × Nat) := []
deriving DecidableEq, Repr

/-- Messages the extension writes to the relay socket (`sendToRelay`). -/
inductive RelayOut
  | attachedEvent (sessionId targetId : String)
  | detachedEvent (sessionId targetId reason : String)
  | cdpEvent (sessionId method : String)
  | pong
  | response (id : Int) (isError : Bool)
deriving DecidableEq, Repr

/-- Externally visible actions, in program order. -/
inductive Effect
  | send (m : RelayOut)
  | rejectPending (id : Int) (reason : String)
  | resolvePending (id : Int)
  | debugAttach (tabId : Nat)
  | debugDetach (tabId : Nat)
  | tabsRemove (tabId : Nat)
deriving DecidableEq, Repr

/-- Session-id minting, `cb-tab-` followed by the counter value
(src/background.js:197, 287). -/
def mkSession (n : Nat) : String := "cb-tab-" ++ Nat.repr n

/-! ### Transport loss (src/background.js:102-123 `onRelayClosed`) -/

/-- Per-record effect of the transport-loss reset: a `connected` record keeps
`targetId`/`state` but loses its `sessionId` (src/background.js:116-120). -/
def clearConnectedSession (r : TabRec) : TabRec :=
  if r.state = TabState.connected then { r with sessionId := none } else r

/-- Embeds `onRelayClosed`: reject every pending waiter, empty the pending table,
clear both session indices, demote connected tabs to awaiting re-announce,
and schedule the reconnect retry (gated on `globalEnabled`). -/
def onRelayClosed (st : St) (reason : String) : St × List Effect :=
  ({ st with
      relayConnected := false
      pending := []
      tabBySession := []
      childSessionToTab := []
      tabs := st.tabs.map (fun e => (e.1, clearConnectedSession e.2))
      retryTimer := st.globalEnabled },
   st.pending.map (fun e =>
     Effect.rejectPending e.1 ("Relay disconnected (" ++ reason ++ ")")))

/-! ### Attach / detach (src/background.js:185-273) -/

/-- Embeds `attachTab(tabId, opts)` (src/background.js:185-223).

`attachOutcome` is the oracle for the three awaited collaborator calls
`chrome.debugger.attach`, `Page.enable` (best-effort) and
`Target.getTargetInfo`: `none` models a throw, `some raw` success with raw
`targetInfo.targetId` string `raw`.  The returned `Except` is the function's
own result/throw.  Note that when the attached event must be sent but the
relay is down, `sendToRelay` throws *after* the Tab Record and the primary
index entry were already inserted (src/background.js:200-219). -/
def attachTab (st : St) (tabId : Nat) (attachOutcome : Option String)
    (skipAttachedEvent : Bool := false) :
    St × List Effect × Except String (String × String) :=
  match attachOutcome with
  | none => (st, [], Except.error "attach failed")
  | some raw =>
    let targetId := jsTrim raw
    if targetId = "" then
      (st, [Effect.debugAttach tabId],
       Except.error "Target.getTargetInfo returned no targetId")
    else
      let sessionId := mkSession st.nextSession
      let attachOrder := st.nextSession + 1
      let st1 := { st with
        nextSession := st.nextSession + 1
        tabs := mapSet st.tabs tabId
          ⟨TabState.connected, some sessionId, some targetId, some attachOrder⟩
        tabBySession := mapSet st.tabBySession sessionId tabId }
      if skipAttachedEvent then
        (st1, [Effect.debugAttach tabId], Except.ok (sessionId, targetId))
      else if st.relayConnected then
        (st1,
         [Effect.debugAttach tabId,
          Effect.send (RelayOut.attachedEvent sessionId targetId)],
         Except.ok (sessionId, targetId))
      else
        (st1, [Effect.debugAttach tabId], Except.error "Relay not connected")

/-- Embeds `tryAttachTab` (src/background.js:261-273): skip if tracked, else mark
`connecting`, attach; on failure remove the record and best-effort detach. -/
def tryAttachTab (st : St) (tabId : Nat) (attachOutcome : Option String) :
    St × List Effect :=
  if mapHas st.tabs tabId then (st, [])
  else
    let st0 := { st with tabs := mapSet st.tabs tabId ⟨TabState.connecting, none, none, none⟩ }
    match attachTab st0 tabId attachOutcome false with
    | (st1, effs, Except.ok _) => (st1, effs)
    | (st1, effs, Except.error _) =>
      ({ st1 with tabs := mapDelete st1.tabs tabId },
       effs ++ [Effect.debugDetach tabId])

/-- Embeds `detachTab(tabId, reason)` (src/background.js:225-259). -/
def detachTab (st : St) (tabId : Nat) (reason : String) : St × List Effect :=
  let tab? := mapGet st.tabs tabId
  let sendEffs : List Effect :=
    match tab? with
    | some tab =>
      if truthyStr tab.sessionId ∧ truthyStr tab.targetId then
        if st.relayConnected then
          [Effect.send (RelayOut.detachedEvent (tab.sessionId.getD "")
            (tab.targetId.getD "") reason)]
        else []  -- sendToRelay throws, swallowed by the surrounding catch
      else []
    | none => []
  let st1 :=
    match tab? with
    | some tab =>
      if truthyStr tab.sessionId then
        { st with tabBySession := mapDelete st.tabBySession (tab.sessionId.getD "") }
      else st
    | none => st
  ({ st1 with
      tabs := mapDelete st1.tabs tabId
      childSessionToTab :=
        st1.childSessionToTab.filter (fun e => decide (e.2 ≠ tabId)) },
   sendEffs ++ [Effect.debugDetach tabId])

/-! ### Tab removal (src/background.js:578-587 `chrome.tabs.onRemoved`) -/

/-- The `chrome.tabs.onRemoved` listener: cancel any reattach timer, then
drop the Tab Record, its primary-index entry and its child-index entries.
No transport message and no `chrome.debugger` call is made. -/
def onTabRemoved (st : St) (tabId : Nat) : St × List Effect :=
  let st0 := { st with reattachTimers := mapDelete st.reattachTimers tabId }
  if ¬ mapHas st0.tabs tabId then (st0, [])
  else
    let st1 :=
      match mapGet st0.tabs tabId with
      | some tab =>
        if truthyStr tab.sessionId then
          { st0 with tabBySession := mapDelete st0.tabBySession (tab.sessionId.getD "") }
        else st0
      | none => st0
    ({ st1 with
        tabs := mapDelete st1.tabs tabId
        childSessionToTab :=
          st1.childSessionToTab.filter (fun e => decide (e.2 ≠ tabId)) },
     [])

/-! ### Command routing (src/background.js:170-183, 374-448) -/

inductive SessKind
  | main
  | child
deriving DecidableEq, Repr

/-- Embeds `getTabBySessionId` (src/background.js:170-176); `if (direct)` and
`if (child)` are JS truthiness checks on the numeric tab id. -/
def getTabBySessionId (st : St) (sessionId : String) : Option (Nat × SessKind) :=
  let direct := mapGet st.tabBySession sessionId
  if truthyNat direct then direct.map (fun t => (t, SessKind.main))
  else
    let child := mapGet st.childSessionToTab sessionId
    if truthyNat child then child.map (fun t => (t, SessKind.child))
    else none

/-- Embeds `getTabByTargetId` (src/background.js:178-183): first Tab Record in
iteration order whose `targetId` strictly equals the argument. -/
def getTabByTargetId (st : St) (targetId : String) : Option Nat :=
  (st.tabs.find? (fun e => e.2.targetId = some targetId)).map (·.1)

/-- The weak fallback (src/background.js:384-389): first tab in iteration
order whose state is `connected`. -/
def firstConnectedTab (st : St) : Option Nat :=
  (st.tabs.find? (fun e => e.2.state = TabState.connected)).map (·.1)

/-- The destination-tab computation of `handleForwardCdpCommand`
(src/background.js:379-389): `bySession?.tabId || (targetId ?
getTabByTargetId(targetId) : null) || firstConnected`.  The arguments model
`typeof … === 'string'` checks: `none` when the field is absent or not a
string; `s ?` / `targetId ?` truthiness excludes the empty string. -/
def resolveForwardTab (st : St) (sessionId paramsTargetId : Option String) :
    Option Nat :=
  let bySession : Option (Nat × SessKind) :=
    match sessionId with
    | some s => if s ≠ "" then getTabBySessionId st s else none
    | none => none
  let byTarget : Option Nat :=
    match paramsTargetId with
    | some t => if t ≠ "" then getTabByTargetId st t else none
    | none => none
  jsOrNat (bySession.map (·.1)) (jsOrNat byTarget (firstConnectedTab st))

/-- Failure check of the routed tab: throw the no-attached-tab error when
the resolved id is absent or falsy (src/background.js:391). -/
def routeForward (st : St) (method : String)
    (sessionId paramsTargetId : Option String) : Except String Nat :=
  match resolveForwardTab st sessionId paramsTargetId with
  | some t =>
    if t ≠ 0 then Except.ok t
    else Except.error ("No attached tab for method " ++ method)
  | none => Except.error ("No attached tab for method " ++ method)

/-- A decoded inbound relay message.  Fields model the dynamic checks of
`onRelayMessage`: `id` is present iff `typeof msg.id === 'number'`,
`hasResult`/`hasError` iff `msg.result`/`msg.error !== undefined`,
`errorTruthy` the JS truthiness of `msg.error`, and the `fwd*` fields the
string-typed fields of a `forwardCDPCommand` payload. -/
structure RelayInMsg where
  method : Option String := none
  id : Option Int := none
  hasResult : Bool := false
  hasError : Bool := false
  errorTruthy : Bool := false
  errorText : String := ""
  fwdMethod : Option String := none
  fwdSessionId : Option String := none
  fwdTargetId : Option String := none
  fwdUrl : Option String := none
deriving DecidableEq, Repr

/-- Outcomes of the external collaborator calls made while handling one
forwarded command. -/
structure Collab where
  /-- Outcome of `chrome.debugger.sendCommand` on
  (tab, optional child session, method). -/
  sendCommand : Nat → Option String → String → Except String Unit
  /-- Outcome of `chrome.tabs.create`: `Except.error` a throw, `none` a tab
  without id. -/
  tabsCreate : Except String (Option Nat)
  /-- attach oracle for the created tab (see `attachTab`). -/
  attachOutcome : Nat → Option String
  /-- Whether `chrome.tabs.remove` succeeds. -/
  tabsRemove : Nat → Bool

/-- Embeds `handleForwardCdpCommand` (src/background.js:374-448).  Special-cases
`Runtime.enable` (disable first), `Target.createTarget` (create + attach),
`Target.closeTarget`, `Target.activateTarget`; forwards everything else,
addressed at the child session when the command's session differs from the
tab's main session. -/
def handleForwardCdpCommand (co : Collab) (st : St) (m : RelayInMsg) :
    St × List Effect × Except String Unit :=
  let method := jsTrim (m.fwdMethod.getD "")
  match routeForward st method m.fwdSessionId m.fwdTargetId with
  | Except.error e => (st, [], Except.error e)
  | Except.ok tabId =>
    if method = "Runtime.enable" then
      -- best-effort Runtime.disable and a 50 ms pause, then Runtime.enable
      (st, [], (co.sendCommand tabId none "Runtime.enable").map (fun _ => ()))
    else if method = "Target.createTarget" then
      match co.tabsCreate with
      | Except.error e => (st, [], Except.error e)
      | Except.ok none => (st, [], Except.error "Failed to create tab")
      | Except.ok (some newTab) =>
        match attachTab st newTab (co.attachOutcome newTab) false with
        | (st1, effs, Except.ok _) => (st1, effs, Except.ok ())
        | (st1, effs, Except.error e) => (st1, effs, Except.error e)
    else if method = "Target.closeTarget" then
      let target := m.fwdTargetId.getD ""
      let toClose := if target ≠ "" then getTabByTargetId st target else some tabId
      -- returns a success boolean ({success: co.tabsRemove c}), never throws
      match toClose with
      | none => (st, [], Except.ok ())
      | some c => (st, [Effect.tabsRemove c], Except.ok ())
    else if method = "Target.activateTarget" then
      (st, [], Except.ok ())  -- best-effort focus/activate, empty result
    else
      let mainSessionId := (mapGet st.tabs tabId).bind (·.sessionId)
      let sess : Option String :=
        if truthyStr m.fwdSessionId ∧ truthyStr mainSessionId
            ∧ m.fwdSessionId ≠ mainSessionId then
          m.fwdSessionId
        else none
      (st, [], co.sendCommand tabId sess method)

/-- Embeds `onRelayMessage` (src/background.js:133-168).  The argument is the
result of `JSON.parse`: `none` for unparseable input (the handler returns).
Branch order: `ping`, then response correlation, then `forwardCDPCommand`. -/
def onRelayMessage (co : Collab) (st : St) (parsed : Option RelayInMsg) :
    St × List Effect :=
  match parsed with
  | none => (st, [])
  | some m =>
    if m.method = some "ping" then
      (st, if st.relayConnected then [Effect.send RelayOut.pong] else [])
    else if m.id.isSome ∧ (m.hasResult ∨ m.hasError) then
      match m.id with
      | some i =>
        (match mapGet st.pending i with
         | none => (st, [])
         | some _ =>
           ({ st with pending := mapDelete st.pending i },
            if m.errorTruthy then [Effect.rejectPending i m.errorText]
            else [Effect.resolvePending i]))
      | none => (st, [])
    else if m.id.isSome ∧ m.method = some "forwardCDPCommand" then
      match m.id with
      | some i =>
        let res := handleForwardCdpCommand co st m
        (res.1,
         res.2.1 ++
           (if res.1.relayConnected then
             [Effect.send (RelayOut.response i
               (match res.2.2 with | Except.ok _ => false | Except.error _ => true))]
           else []))
      | none => (st, [])
    else (st, [])

/-! ### Reconnect reconciliation (src/background.js:275-355) -/

/-- Trim-and-check of the probed `targetInfo.targetId`
(src/background.js:282-285): the probe oracle yields `none` on a throw,
`some raw` on success; an empty trimmed id counts as failure. -/
def probeResult (raw : Option String) : Option String :=
  match raw with
  | none => none
  | some r => let t := jsTrim r; if t = "" then none else some t

/-- One iteration of the `reannounceAllTabs` loop for snapshot entry
`(tabId, tab)` (src/background.js:276-310).  The loop only ever rewrites or
deletes the entry it is visiting, so iterating the entry snapshot matches
the live-`Map` iteration of the source. -/
def reannStep (probe : Nat → Option String) (acc : St × List Effect)
    (e : Nat × TabRec) : St × List Effect :=
  let st := acc.1
  let effs := acc.2
  if e.2.state ≠ TabState.connected then acc
  else if truthyStr e.2.sessionId then acc  -- already has a session, skip
  else
    match probeResult (probe e.1) with
    | some targetId =>
      let sessionId := mkSession st.nextSession
      let st1 := { st with
        nextSession := st.nextSession + 1
        tabs := mapSet st.tabs e.1
          { e.2 with sessionId := some sessionId, targetId := some targetId }
        tabBySession := mapSet st.tabBySession sessionId e.1 }
      if st.relayConnected then
        (st1, effs ++ [Effect.send (RelayOut.attachedEvent sessionId targetId)])
      else
        -- sendToRelay throws inside the try: the catch deletes the tab, but
        -- the freshly inserted index entry survives.
        ({ st1 with tabs := mapDelete st1.tabs e.1 }, effs)
    | none =>
      ({ st with tabs := mapDelete st.tabs e.1 }, effs)

/-- Embeds `reannounceAllTabs` (src/background.js:275-311). -/
def reannounceAllTabs (probe : Nat → Option String) (st : St) :
    St × List Effect :=
  st.tabs.foldl (reannStep probe) (st, [])

/-- Skip list of `attachAllTabs` and the tab-event listeners
(src/background.js:318). -/
def shouldSkipUrl (url : String) : Bool :=
  jsStartsWith url "chrome://" || jsStartsWith url "chrome-extension://" ||
  jsStartsWith url "devtools://" || jsStartsWith url "edge://"

/-- Embeds `attachAllTabs` (src/background.js:313-321): `allTabs` is the
`chrome.tabs.query({})` snapshot as (optional id, url) pairs; `attach` the
per-tab attach oracle. -/
def attachAllTabs (attach : Nat → Option String)
    (allTabs : List (Option Nat × String)) (st : St) : St × List Effect :=
  allTabs.foldl (fun acc t =>
    match t.1 with
    | none => acc
    | some id =>
      if id = 0 then acc  -- `if (!tab.id) continue`
      else if shouldSkipUrl t.2 then acc
      else
        let r := tryAttachTab acc.1 id (attach id)
        (r.1, acc.2 ++ r.2)) (st, [])

/-- The happy path of `enableGlobal` (src/background.js:344-355) once
`ensureRelayConnection` has succeeded: reannounce, then attach new tabs. -/
def enableGlobal (probe attach : Nat → Option String)
    (allTabs : List (Option Nat × String)) (st : St) : St × List Effect :=
  let r1 := reannounceAllTabs probe st
  let r2 := attachAllTabs attach allTabs r1.1
  (r2.1, r1.2 ++ r2.2)

/-! ### Reattachment backoff (src/background.js:481-522) -/

/-- Embeds `scheduleReattach(tabId, delay)` (src/background.js:481-505):
cancel any
existing timer, then (if enabled) record a timer with the given delay. -/
def scheduleReattach (st : St) (tabId : Nat) (delay : Nat := 1000) : St :=
  let st0 := { st with reattachTimers := mapDelete st.reattachTimers tabId }
  if ¬ st.globalEnabled then st0
  else { st0 with reattachTimers := mapSet st0.reattachTimers tabId delay }

/-- Embeds `cancelReattach` (src/background.js:507-513). -/
def cancelReattach (st : St) (tabId : Nat) : St :=
  { st with reattachTimers := mapDelete st.reattachTimers tabId }

/-- The body of the timer scheduled by `scheduleReattach(tabId, delay)`
(src/background.js:484-503).  `tabExists` is the `chrome.tabs.get` outcome,
`relayOk` the `ensureRelayConnection` outcome, `attachOutcome` the oracle
for `tryAttachTab`.  The third component is the delay of the follow-up
retry, `none` when none is scheduled. -/
def reattachTimerFire (st : St) (tabId delay : Nat)
    (tabExists relayOk : Bool) (attachOutcome : Option String) :
    St × List Effect × Option Nat :=
  let st0 := { st with reattachTimers := mapDelete st.reattachTimers tabId }
  if ¬ st.globalEnabled then (st0, [], none)
  else if ¬ tabExists then (st0, [], none)  -- tab was closed
  else if mapHas st0.tabs tabId then (st0, [], none)  -- already re-attached
  else if ¬ relayOk then
    (scheduleReattach st0 tabId (min (delay * 2) 10000), [],
     some (min (delay * 2) 10000))
  else
    let r := tryAttachTab st0 tabId attachOutcome
    if (match mapGet r.1.tabs tabId with
        | some rec => rec.state = TabState.connected
        | none => false : Bool) then
      (r.1, r.2, none)
    else
      (scheduleReattach r.1 tabId (min (delay * 2) 10000), r.2,
       some (min (delay * 2) 10000))

/-- The delay of the n-th (0-indexed) retry in an uninterrupted run of
failures: `scheduleReattach` starts at its default 1000 ms
(src/background.js:481, 521) and every failure reschedules with
`Math.min(delay * 2, 10000)` (src/background.js:496, 501). -/
def reattachDelay : Nat → Nat
  | 0 => 1000
  | n + 1 => min (reattachDelay n * 2) 10000

/-! ### Configuration (src/background.js:1, 33-39) -/

def DEFAULT_PORT : Nat := 18792

/-- Embeds `getRelayPort` (src/background.js:33-39), as a function of the string
`String(raw || '')` computed from the stored `relayPort` value. -/
def getRelayPort (rendered : String) : Nat :=
  match parseIntJs rendered with
  | none => DEFAULT_PORT
  | some n => if n ≤ 0 ∨ n > 65535 then DEFAULT_PORT else n.toNat

/-- Rendering `String(raw || '')` for a stored value that is absent or an integral
number: `undefined` and `0` are falsy and render as `''`; other integers
render in decimal. -/
def renderStored : Option Int → String
  | none => ""
  | some n =>
    if n = 0 then ""
    else if n < 0 then "-" ++ Nat.repr n.natAbs
    else Nat.repr n.natAbs

/-- Whether any effect in the list writes to the
relay socket. -/
def hasSend (effs : List Effect) : Bool :=
  effs.any (fun e => match e with | Effect.send _ => true | _ => false)

/-- Number of `rejectPending i _` effects in a list. -/
def rejectCount (effs : List Effect) (i : Int) : Nat :=
  (effs.filter (fun e => match e with
    | Effect.rejectPending j _ => decide (j = i)
    | _ => false)).length

/-! ### The spec's routing order, stated in the spec's own words (claim C3):
(1) explicit session identifier, primary index before child index;
(2) explicit target identifier, scanning the Tab Records;
(3) first connected tab; else failure. -/

def specResolveTarget (st : St) (paramsTargetId : Option String) : Option Nat :=
  match paramsTargetId with
  | some t =>
    match (st.tabs.find? (fun e => e.2.targetId = some t)).map (·.1) with
    | some tb => some tb
    | none => (st.tabs.find? (fun e => e.2.state = TabState.connected)).map (·.1)
  | none => (st.tabs.find? (fun e => e.2.state = TabState.connected)).map (·.1)

def specResolve (st : St) (sessionId paramsTargetId : Option String) :
    Option Nat :=
  match sessionId with
  | some s =>
    match mapGet st.tabBySession s with
    | some t => some t
    | none =>
      match mapGet st.childSessionToTab s with
      | some t => some t
      | none => specResolveTarget st paramsTargetId
  | none => specResolveTarget st paramsTargetId

/-! ## Supporting lemmas -/

theorem mapGet_eq_none {α β : Type} [DecidableEq α] (m : List (α × β)) (k : α)
    (h : ∀ e ∈ m, e.1 ≠ k) : mapGet m k = none := by
  induction m with
  | nil => rfl
  | cons e tl ih =>
    have he : e.1 ≠ k := h e (by simp)
    simp only [mapGet, he, if_neg, if_false]
    exact ih (fun e' he' => h e' (by simp [he']))

theorem mapGet_mapSet_self {α β : Type} [DecidableEq α] (m : List (α × β))
    (k : α) (v : β) : mapGet (mapSet m k v) k = some v := by
  induction m with
  | nil => simp [mapGet, mapSet]
  | cons e tl ih =>
    by_cases he : e.1 = k <;> simp [mapGet, mapSet, he, ih]

theorem mapGet_mapSet_ne {α β : Type} [DecidableEq α] (m : List (α × β))
    (k k' : α) (v : β) (h : k ≠ k') :
    mapGet (mapSet m k v) k' = mapGet m k' := by
  induction m with
  | nil => simp [mapGet, mapSet, h]
  | cons e tl ih =>
    by_cases he : e.1 = k
    · simp [mapGet, mapSet, he, h, Ne.symm h]
    · by_cases he' : e.1 = k' <;>
        simp [mapGet, mapSet, he, he', h, Ne.symm h, ih]

theorem mapGet_mapDelete_self {α β : Type} [DecidableEq α] (m : List (α × β))
    (k : α) : mapGet (mapDelete m k) k = none := by
  induction m with
  | nil => rfl
  | cons e tl ih =>
    by_cases he : e.1 = k <;> simp [mapGet, mapDelete, he, ih]

theorem mapGet_mapDelete_ne {α β : Type} [DecidableEq α] (m : List (α × β))
    (k k' : α) (h : k ≠ k') : mapGet (mapDelete m k) k' = mapGet m k' := by
  induction m with
  | nil => rfl
  | cons e tl ih =>
    by_cases he : e.1 = k
    · simp [mapGet, mapDelete, he, h, Ne.symm h, ih]
    · by_cases he' : e.1 = k' <;>
        simp [mapGet, mapDelete, he, he', h, Ne.symm h, ih]

theorem mapDelete_of_not_mem {α β : Type} [DecidableEq α] (m : List (α × β))
    (k : α) (h : mapGet m k = none) : mapDelete m k = m := by
  induction m with
  | nil => rfl
  | cons e tl ih =>
    by_cases he : e.1 = k
    · simp [mapGet, he] at h
    · simp only [mapGet, he, if_neg, if_false] at h
      simp [mapDelete, he, ih h]

theorem toDigitsCore_append (fuel n : Nat) (ds : List Char) :
    Nat.toDigitsCore 10 fuel n ds = Nat.toDigitsCore 10 fuel n [] ++ ds := by
  induction fuel generalizing n ds with
  | zero => simp [Nat.toDigitsCore]
  | succ fuel ih =>
    by_cases h : n / 10 = 0
    · simp [Nat.toDigitsCore, h]
    · rw [show Nat.toDigitsCore 10 (fuel + 1) n ds
            = Nat.toDigitsCore 10 fuel (n / 10) (Nat.digitChar (n % 10) :: ds)
          from by simp [Nat.toDigitsCore, h],
          show Nat.toDigitsCore 10 (fuel + 1) n []
            = Nat.toDigitsCore 10 fuel (n / 10) (Nat.digitChar (n % 10) :: [])
          from by simp [Nat.toDigitsCore, h],
          ih (n / 10) (Nat.digitChar (n % 10) :: ds),
          ih (n / 10) (Nat.digitChar (n % 10) :: [])]
      simp

theorem digitVal_digitChar (m : Nat) (h : m < 10) :
    digitVal (Nat.digitChar m) = m := by
  revert h
  revert m
  decide

theorem isDigit_digitChar (m : Nat) (h : m < 10) :
    (Nat.digitChar m).isDigit = true := by
  revert h
  revert m
  decide

theorem digitsVal_append_singleton (l : List Char) (c : Char) :
    digitsVal (l ++ [c]) = digitsVal l * 10 + digitVal c := by
  simp [digitsVal, List.foldl_append]

theorem digitsVal_toDigitsCore (fuel n : Nat) (h : n < fuel) :
    digitsVal (Nat.toDigitsCore 10 fuel n []) = n := by
  induction fuel generalizing n with
  | zero => omega
  | succ fuel ih =>
    by_cases hd : n / 10 = 0
    · have hn : n < 10 := by omega
      simp only [Nat.toDigitsCore, hd, if_true]
      have : digitsVal [Nat.digitChar (n % 10)] = n % 10 := by
        simp [digitsVal, digitVal_digitChar (n % 10) (Nat.mod_lt _ (by omega))]
      rw [this]
      omega
    · have hrec : Nat.toDigitsCore 10 (fuel + 1) n []
          = Nat.toDigitsCore 10 fuel (n / 10) [] ++ [Nat.digitChar (n % 10)] := by
        rw [show Nat.toDigitsCore 10 (fuel + 1) n []
              = Nat.toDigitsCore 10 fuel (n / 10) (Nat.digitChar (n % 10) :: [])
            from by simp [Nat.toDigitsCore, hd]]
        exact toDigitsCore_append fuel (n / 10) _
      rw [hrec, digitsVal_append_singleton,
          ih (n / 10) (by omega),
          digitVal_digitChar (n % 10) (Nat.mod_lt _ (by omega))]
      omega

theorem digitsVal_toDigits (n : Nat) :
    digitsVal (Nat.toDigits 10 n) = n :=
  digitsVal_toDigitsCore (n + 1) n (Nat.lt_succ_self n)

theorem all_isDigit_toDigitsCore (fuel n : Nat) (ds : List Char)
    (hds : ∀ c ∈ ds, c.isDigit = true) :
    ∀ c ∈ Nat.toDigitsCore 10 fuel n ds, c.isDigit = true := by
  induction fuel generalizing n ds with
  | zero => simpa [Nat.toDigitsCore] using hds
  | succ fuel ih =>
    have hdchar : (Nat.digitChar (n % 10)).isDigit = true :=
      isDigit_digitChar (n % 10) (Nat.mod_lt _ (by omega))
    by_cases hd : n / 10 = 0
    · simp only [Nat.toDigitsCore, hd, if_true]
      intro c hc
      rcases List.mem_cons.mp hc with hc | hc
      · exact hc ▸ hdchar
      · exact hds c hc
    · rw [show Nat.toDigitsCore 10 (fuel + 1) n ds
            = Nat.toDigitsCore 10 fuel (n / 10) (Nat.digitChar (n % 10) :: ds)
          from by simp [Nat.toDigitsCore, hd]]
      apply ih
      intro c hc
      rcases List.mem_cons.mp hc with hc | hc
      · exact hc ▸ hdchar
      · exact hds c hc

theorem all_isDigit_toDigits (n : Nat) :
    ∀ c ∈ Nat.toDigits 10 n, c.isDigit = true :=
  all_isDigit_toDigitsCore (n + 1) n [] (by intro c hc; cases hc)

theorem toDigits_ne_nil (n : Nat) : Nat.toDigits 10 n ≠ [] := by
  unfold Nat.toDigits Nat.toDigitsCore
  by_cases hd : n / 10 = 0
  · simp [hd]
  · rw [if_neg hd, toDigitsCore_append]
    simp

theorem repr_data (n : Nat) : (Nat.repr n).data = Nat.toDigits 10 n := rfl

theorem nat_repr_injective (n m : Nat) (h : Nat.repr n = Nat.repr m) : n = m := by
  have hdata : Nat.toDigits 10 n = Nat.toDigits 10 m := by
    rw [← repr_data, ← repr_data, h]
  calc n = digitsVal (Nat.toDigits 10 n) := (digitsVal_toDigits n).symm
    _ = digitsVal (Nat.toDigits 10 m) := by rw [hdata]
    _ = m := digitsVal_toDigits m

theorem mkSession_injective (n m : Nat) (h : mkSession n = mkSession m) :
    n = m := by
  apply nat_repr_injective
  have hd : (mkSession n).data = (mkSession m).data := by rw [h]
  simp only [mkSession] at hd
  have : ("cb-tab-" ++ Nat.repr n).data
      = "cb-tab-".data ++ (Nat.repr n).data := rfl
  rw [this, show ("cb-tab-" ++ Nat.repr m).data
      = "cb-tab-".data ++ (Nat.repr m).data from rfl] at hd
  have := List.append_cancel_left hd
  exact String.ext this

theorem isWhitespace_eq_false_of_isDigit (c : Char) (h : c.isDigit = true) :
    c.isWhitespace = false := by
  by_cases h1 : c = ' '
  · subst h1; exact absurd h (by decide)
  by_cases h2 : c = '\t'
  · subst h2; exact absurd h (by decide)
  by_cases h3 : c = '\r'
  · subst h3; exact absurd h (by decide)
  by_cases h4 : c = '\n'
  · subst h4; exact absurd h (by decide)
  simp [Char.isWhitespace, h1, h2, h3, h4]

theorem ne_dash_of_isDigit (c : Char) (h : c.isDigit = true) : c ≠ '-' := by
  intro he; subst he; exact absurd h (by decide)

theorem ne_plus_of_isDigit (c : Char) (h : c.isDigit = true) : c ≠ '+' := by
  intro he; subst he; exact absurd h (by decide)

theorem takeWhile_eq_self_of_all {α : Type} {p : α → Bool} (l : List α)
    (h : ∀ c ∈ l, p c = true) : l.takeWhile p = l := by
  induction l with
  | nil => rfl
  | cons c tl ih =>
    simp only [List.takeWhile, h c (by simp), List.cons.injEq, true_and]
    exact ih (fun c' hc' => h c' (by simp [hc']))

theorem parseIntJs_digits (k : Nat) :
    parseIntJs ⟨Nat.toDigits 10 k⟩ = some (k : Int) := by
  obtain ⟨c, rest, hcr⟩ : ∃ c rest, Nat.toDigits 10 k = c :: rest := by
    cases hh : Nat.toDigits 10 k with
    | nil => exact absurd hh (toDigits_ne_nil k)
    | cons c rest => exact ⟨c, rest, rfl⟩
  have hall := all_isDigit_toDigits k
  have hc : c.isDigit = true := hall c (by rw [hcr]; simp)
  have hdata : (⟨Nat.toDigits 10 k⟩ : String).data = c :: rest := by
    rw [← hcr]
  have hws : (c :: rest).dropWhile Char.isWhitespace = c :: rest :=
    List.dropWhile_cons_of_neg
      (by simp [isWhitespace_eq_false_of_isDigit c hc])
  have hneg : decide (c = '-') = false := by
    simp [ne_dash_of_isDigit c hc]
  have hplus : decide (c = '+') = false := by
    simp [ne_plus_of_isDigit c hc]
  have htw : (c :: rest).takeWhile Char.isDigit = c :: rest :=
    takeWhile_eq_self_of_all (c :: rest) (by rw [← hcr]; exact hall)
  have hfold : (c :: rest).foldl (fun a c => a * 10 + digitVal c) 0 = k := by
    rw [← hcr]; exact digitsVal_toDigits k
  simp only [parseIntJs, hcr, hws, hneg, hplus, Bool.or_self,
    Bool.false_eq_true, if_false, htw, List.isEmpty_cons, hfold]

theorem parseIntJs_neg_digits (m : Nat) :
    parseIntJs ("-" ++ ⟨Nat.toDigits 10 m⟩) = some (-(m : Int)) := by
  have hall := all_isDigit_toDigits m
  have hdata : ("-" ++ (⟨Nat.toDigits 10 m⟩ : String)).data
      = '-' :: Nat.toDigits 10 m := rfl
  have hws : ('-' :: Nat.toDigits 10 m).dropWhile Char.isWhitespace
      = '-' :: Nat.toDigits 10 m :=
    List.dropWhile_cons_of_neg (by decide)
  have htw : (Nat.toDigits 10 m).takeWhile Char.isDigit = Nat.toDigits 10 m :=
    takeWhile_eq_self_of_all (Nat.toDigits 10 m) hall
  have hne : (Nat.toDigits 10 m).isEmpty = false := by
    cases hh : Nat.toDigits 10 m with
    | nil => exact absurd hh (toDigits_ne_nil m)
    | cons c rest => rfl
  have hfold : (Nat.toDigits 10 m).foldl (fun a c => a * 10 + digitVal c) 0 = m :=
    digitsVal_toDigits m
  have hd : decide (('-' : Char) = '-') = true := by decide
  have hp2 : decide (('-' : Char) = '+') = false := by decide
  simp only [parseIntJs, hdata, hws, hd, hp2, Bool.true_or, if_true,
    List.tail_cons, htw, hne, Bool.false_eq_true, if_false, hfold]
  simp [htw, hne, hfold]

theorem repr_asString (m : Nat) : Nat.repr m = ⟨Nat.toDigits 10 m⟩ := rfl

theorem reattachDelay_closed (m : Nat) :
    reattachDelay m = min (2 ^ m * 1000) 10000 := by
  induction m with
  | zero => simp [reattachDelay]
  | succ m ih =>
    rw [reattachDelay, ih, pow_succ]
    omega

/-! ## Claim theorems -/

/-- C8 (amended): `getRelayPort` stringifies the stored value (`0` and
absent are falsy and render as `''`) and applies `parseInt(·, 10)`; a parse
in `[1, 65535]` is returned, everything else falls back to the default
18792.  For stored values that are integers or absent this agrees with the
claim: integers in range come back unchanged; absent, zero, negative and
out-of-range values yield the default. -/
theorem getRelayPort_spec (stored : Option Int) :
    getRelayPort (renderStored stored)
      = (match stored with
         | some n => if 1 ≤ n ∧ n ≤ 65535 then n.toNat else DEFAULT_PORT
         | none => DEFAULT_PORT) := by
  have key : ∀ m : Int,
      (if m ≤ 0 ∨ m > 65535 then DEFAULT_PORT else m.toNat)
        = (if 1 ≤ m ∧ m ≤ 65535 then m.toNat else DEFAULT_PORT) := by
    intro m
    by_cases h : 1 ≤ m ∧ m ≤ 65535
    · rw [if_pos h, if_neg (by omega)]
    · rw [if_neg h, if_pos (by omega)]
  match stored with
  | none => rfl
  | some n =>
    by_cases h0 : n = 0
    · subst h0
      decide
    · by_cases hneg : n < 0
      · have hr : renderStored (some n) = "-" ++ ⟨Nat.toDigits 10 n.natAbs⟩ := by
          simp [renderStored, h0, hneg, repr_asString]
        have hcast : -((n.natAbs : Nat) : Int) = n := by omega
        rw [hr]
        unfold getRelayPort
        rw [parseIntJs_neg_digits, hcast]
        exact key n
      · have hr : renderStored (some n) = ⟨Nat.toDigits 10 n.natAbs⟩ := by
          simp [renderStored, h0, hneg, repr_asString]
        have hcast : ((n.natAbs : Nat) : Int) = n := by omega
        rw [hr]
        unfold getRelayPort
        rw [parseIntJs_digits, hcast]
        exact key n

/-- C8 counterexample: `String(80.5)` is `"80.5"`, whose `parseInt` is 80,
an in-range value — so for the non-integer stored value 80.5 the function
returns 80, not the default 18792 that the claim requires for every
non-integer stored value. -/
theorem getRelayPort_claim_counterexample :
    getRelayPort "80.5" = 80 ∧ ¬ getRelayPort "80.5" = DEFAULT_PORT := by
  decide

/-- A concrete instance of the amended C8 statement. -/
theorem getRelayPort_spec_witness :
    getRelayPort (renderStored (some 8080)) = 8080 := by
  have h := getRelayPort_spec (some 8080)
  simpa using h

/-- C5: in a run of consecutive failed reattach attempts the n-th scheduled
delay is `min(2^(n-1) * 1000 ms, 10000 ms)` — the run starts at the 1000 ms
default of `scheduleReattach`, every failing timer fire reschedules with
`min(delay * 2, 10000)`, and a fire whose attach succeeds schedules no
further retry and leaves no timer for the tab. -/
theorem reattach_backoff_spec (st : St) (tabId delay n : Nat) (raw : String)
    (_hn : 1 ≤ n)
    (henabled : st.globalEnabled = true)
    (huntracked : mapHas st.tabs tabId = false)
    (hconn : st.relayConnected = true)
    (hraw : ¬ jsTrim raw = "") :
    reattachDelay (n - 1) = min (2 ^ (n - 1) * 1000) 10000
    ∧ (reattachTimerFire st tabId delay true true none).2.2
        = some (min (delay * 2) 10000)
    ∧ (reattachTimerFire st tabId delay true true (some raw)).2.2 = none
    ∧ mapGet (reattachTimerFire st tabId delay true true (some raw)).1.reattachTimers
        tabId = none := by
  refine ⟨reattachDelay_closed (n - 1), ?_, ?_, ?_⟩
  · simp only [reattachTimerFire, henabled, Bool.not_true, Bool.false_eq_true,
      if_false, not_true, not_false_iff, if_true]
    simp [huntracked, tryAttachTab, attachTab, mapGet_mapDelete_self]
  · simp only [reattachTimerFire, henabled]
    simp [huntracked, tryAttachTab, attachTab, hraw, hconn,
      mapGet_mapSet_self]
  · simp only [reattachTimerFire, henabled]
    simp [huntracked, tryAttachTab, attachTab, hraw, hconn,
      mapGet_mapSet_self, mapGet_mapDelete_self]

/-- C5 witness: concrete run — delays 1000, 2000, 4000 for the first three
retries, a failing fire at delay 4000 schedules 8000, a successful fire
schedules nothing. -/
theorem reattach_backoff_spec_witness :
    reattachDelay 0 = 1000 ∧ reattachDelay 1 = 2000 ∧ reattachDelay 2 = 4000
    ∧ (reattachTimerFire { } 7 4000 true true none).2.2 = some 8000
    ∧ (reattachTimerFire { } 7 4000 true true (some "T")).2.2 = none := by
  have h1 := reattach_backoff_spec { } 7 4000 1 "T" (by decide) (by decide)
    (by decide) (by decide) (by decide)
  have h2 := reattach_backoff_spec { } 7 4000 2 "T" (by decide) (by decide)
    (by decide) (by decide) (by decide)
  have h3 := reattach_backoff_spec { } 7 4000 3 "T" (by decide) (by decide)
    (by decide) (by decide) (by decide)
  refine ⟨by simpa using h1.1, by simpa using h2.1, by simpa using h3.1,
    by simpa using h1.2.1, h1.2.2.1⟩

theorem mapGet_map_snd {β γ : Type} (f : β → γ) (m : List (Nat × β)) (k : Nat) :
    mapGet (m.map (fun e => (e.1, f e.2))) k = (mapGet m k).map f := by
  induction m with
  | nil => rfl
  | cons e tl ih =>
    by_cases he : e.1 = k <;> simp [mapGet, he, ih]

theorem filter_fst_length_one (l : List (Int × Unit)) (i : Int)
    (hnd : (l.map (·.1)).Nodup) (hmem : i ∈ l.map (·.1)) :
    (l.filter (fun e => decide (e.1 = i))).length = 1 := by
  induction l with
  | nil => simp at hmem
  | cons e tl ih =>
    simp only [List.map_cons, List.nodup_cons] at hnd
    by_cases he : e.1 = i
    · have htl : tl.filter (fun e' => decide (e'.1 = i)) = [] := by
        apply List.filter_eq_nil_iff.mpr
        intro a ha
        have hin : a.1 ∈ tl.map (·.1) := List.mem_map_of_mem _ ha
        simp only [decide_eq_true_eq]
        intro hai
        apply hnd.1
        rw [he, ← hai]
        exact hin
      simp [List.filter, he, htl]
    · have hmem' : i ∈ tl.map (·.1) := by
        rcases List.mem_cons.mp hmem with h | h
        · exact absurd h.symm he
        · exact h
      simp only [List.filter, decide_eq_true_eq, he, if_neg]
      simpa using ih hnd.2 hmem'

/-- C1: on transport loss after a successful connect, every outstanding
pending request is rejected exactly once with a disconnect error, the
pending table and both session indices become empty, and every `connected`
Tab Record keeps its `state` and `targetId` but has its `sessionId`
cleared. -/
theorem relayClosed_spec (st : St) (reason : String)
    (hnd : (st.pending.map (·.1)).Nodup) :
    (onRelayClosed st reason).2
      = st.pending.map (fun e =>
          Effect.rejectPending e.1 ("Relay disconnected (" ++ reason ++ ")"))
    ∧ (∀ i ∈ st.pending.map (·.1), rejectCount (onRelayClosed st reason).2 i = 1)
    ∧ (onRelayClosed st reason).1.pending = []
    ∧ (onRelayClosed st reason).1.tabBySession = []
    ∧ (onRelayClosed st reason).1.childSessionToTab = []
    ∧ (∀ tabId r, mapGet st.tabs tabId = some r →
        r.state = TabState.connected →
        mapGet (onRelayClosed st reason).1.tabs tabId
          = some { r with sessionId := none }) := by
  refine ⟨rfl, ?_, rfl, rfl, rfl, ?_⟩
  · intro i hmem
    show rejectCount (st.pending.map (fun e =>
      Effect.rejectPending e.1 ("Relay disconnected (" ++ reason ++ ")"))) i = 1
    unfold rejectCount
    rw [List.filter_map]
    rw [List.length_map]
    have : ((fun e => match e with
        | Effect.rejectPending j _ => decide (j = i)
        | _ => false) ∘ (fun e : Int × Unit =>
          Effect.rejectPending e.1 ("Relay disconnected (" ++ reason ++ ")")))
        = fun e : Int × Unit => decide (e.1 = i) := rfl
    rw [this]
    exact filter_fst_length_one st.pending i hnd hmem
  · intro tabId r h hst
    show mapGet (st.tabs.map (fun e => (e.1, clearConnectedSession e.2))) tabId
      = some { r with sessionId := none }
    rw [mapGet_map_snd, h]
    simp [clearConnectedSession, hst]

/-- C1 witness: a concrete state with two pending requests and one connected
tab. -/
theorem relayClosed_spec_witness :
    rejectCount (onRelayClosed
      ({ pending := [(1, ()), (2, ())],
         tabs := [(5, ⟨TabState.connected, some "cb-tab-1", some "T", some 2⟩)] } : St)
      "closed").2 1 = 1
    ∧ mapGet (onRelayClosed
      ({ pending := [(1, ()), (2, ())],
         tabs := [(5, ⟨TabState.connected, some "cb-tab-1", some "T", some 2⟩)] } : St)
      "closed").1.tabs 5
      = some ⟨TabState.connected, none, some "T", some 2⟩ := by
  have h := relayClosed_spec
    ({ pending := [(1, ()), (2, ())],
       tabs := [(5, ⟨TabState.connected, some "cb-tab-1", some "T", some 2⟩)] } : St)
    "closed" (by decide)
  exact ⟨h.2.1 1 (by decide),
    h.2.2.2.2.2 5 ⟨TabState.connected, some "cb-tab-1", some "T", some 2⟩
      (by decide) (by decide)⟩

/-- C9: the tab-removal listener only cleans local bookkeeping — it deletes
the Tab Record, its primary-index entry, the child-index entries parented
at the tab and any pending reattach timer — and performs no transport send
and no debugger call (the effect list is empty). -/
theorem tabRemoved_spec (st : St) (tabId : Nat) (tab : TabRec)
    (h : mapGet st.tabs tabId = some tab)
    (hs : ¬ tab.sessionId = some "") :
    (onTabRemoved st tabId).2 = []
    ∧ (onTabRemoved st tabId).1.tabs = mapDelete st.tabs tabId
    ∧ (onTabRemoved st tabId).1.reattachTimers
        = mapDelete st.reattachTimers tabId
    ∧ (onTabRemoved st tabId).1.childSessionToTab
        = st.childSessionToTab.filter (fun e => decide (e.2 ≠ tabId))
    ∧ (onTabRemoved st tabId).1.tabBySession
        = (match tab.sessionId with
           | some sid => mapDelete st.tabBySession sid
           | none => st.tabBySession) := by
  cases hsid : tab.sessionId with
  | none =>
    simp [onTabRemoved, mapHas, h, hsid, truthyStr]
  | some sid =>
    have hsne : ¬ sid = "" := by
      intro he
      exact hs (by rw [hsid, he])
    simp [onTabRemoved, mapHas, h, hsid, truthyStr, hsne]

/-- C9 witness. -/
theorem tabRemoved_spec_witness :
    (onTabRemoved
      ({ tabs := [(5, ⟨TabState.connected, some "cb-tab-1", some "T", some 2⟩)],
         tabBySession := [("cb-tab-1", 5)],
         childSessionToTab := [("child-1", 5)],
         reattachTimers := [(5, 2000)] } : St) 5).2 = []
    ∧ (onTabRemoved
      ({ tabs := [(5, ⟨TabState.connected, some "cb-tab-1", some "T", some 2⟩)],
         tabBySession := [("cb-tab-1", 5)],
         childSessionToTab := [("child-1", 5)],
         reattachTimers := [(5, 2000)] } : St) 5).1.tabs = [] := by
  have h := tabRemoved_spec
    ({ tabs := [(5, ⟨TabState.connected, some "cb-tab-1", some "T", some 2⟩)],
       tabBySession := [("cb-tab-1", 5)],
       childSessionToTab := [("child-1", 5)],
       reattachTimers := [(5, 2000)] } : St) 5
    ⟨TabState.connected, some "cb-tab-1", some "T", some 2⟩ (by decide) (by decide)
  refine ⟨h.1, ?_⟩
  rw [h.2.1]
  decide

/-- C10: an inbound transport message that does not parse as JSON, and a
response message (numeric id, result or error present, not a ping) whose id
has no pending entry, leave the state unchanged and send nothing. -/
theorem relayMessage_spec (co : Collab) (st : St) (m : RelayInMsg) (i : Int)
    (hping : ¬ m.method = some "ping")
    (hid : m.id = some i)
    (hre : m.hasResult = true ∨ m.hasError = true)
    (hp : mapGet st.pending i = none) :
    onRelayMessage co st none = (st, [])
    ∧ onRelayMessage co st (some m) = (st, []) := by
  refine ⟨rfl, ?_⟩
  simp [onRelayMessage, hping, hid, hre, hp]

/-- C10 witness: an unknown-id response against a state with one pending
request. -/
theorem relayMessage_spec_witness :
    onRelayMessage
      ⟨fun _ _ _ => Except.ok (), Except.ok none, fun _ => none, fun _ => true⟩
      ({ pending := [(1, ())] } : St)
      (some { id := some 2, hasResult := true })
      = (({ pending := [(1, ())] } : St), []) :=
  (relayMessage_spec
    ⟨fun _ _ _ => Except.ok (), Except.ok none, fun _ => none, fun _ => true⟩
    ({ pending := [(1, ())] } : St)
    { id := some 2, hasResult := true } 2
    (by decide) rfl (Or.inl rfl) (by decide)).2

theorem detachTab_untracked (st : St) (tabId : Nat) (reason : String)
    (h1 : mapGet st.tabs tabId = none)
    (h2 : ∀ e ∈ st.childSessionToTab, e.2 ≠ tabId) :
    detachTab st tabId reason = (st, [Effect.debugDetach tabId]) := by
  have hfilter : st.childSessionToTab.filter (fun e => !decide (e.2 = tabId))
      = st.childSessionToTab := by
    apply List.filter_eq_self.mpr
    intro a ha
    simpa using h2 a ha
  simp [detachTab, h1, mapDelete_of_not_mem st.tabs tabId h1, hfilter]

theorem detachTab_clears (st : St) (tabId : Nat) (reason : String) :
    mapGet (detachTab st tabId reason).1.tabs tabId = none
    ∧ ∀ e ∈ (detachTab st tabId reason).1.childSessionToTab, e.2 ≠ tabId := by
  constructor
  · exact mapGet_mapDelete_self _ _
  · intro e he
    have := (List.mem_filter.mp he).2
    simpa using this

/-- C7: `detachTab` on an untracked tab is a no-op (state unchanged, no
transport output, only the best-effort debugger-detach call); calling it a
second time on the same tab is likewise a no-op; `tryAttachTab` on an
already-tracked tab returns immediately with no state change and no
collaborator call. -/
theorem idempotence_spec (st st' : St) (tabId tabId' : Nat)
    (reason : String) (o : Option String)
    (h1 : mapGet st.tabs tabId = none)
    (h2 : ∀ e ∈ st.childSessionToTab, e.2 ≠ tabId)
    (h3 : mapHas st'.tabs tabId' = true) :
    (detachTab st tabId reason = (st, [Effect.debugDetach tabId])
      ∧ hasSend (detachTab st tabId reason).2 = false)
    ∧ (∀ (s : St) (t : Nat) (ra rb : String),
        detachTab (detachTab s t ra).1 t rb
          = ((detachTab s t ra).1, [Effect.debugDetach t])
        ∧ hasSend (detachTab (detachTab s t ra).1 t rb).2 = false)
    ∧ tryAttachTab st' tabId' o = (st', []) := by
  refine ⟨?_, ?_, ?_⟩
  · have he := detachTab_untracked st tabId reason h1 h2
    refine ⟨he, ?_⟩
    rw [he]
    rfl
  · intro s t ra rb
    have hc := detachTab_clears s t ra
    have he := detachTab_untracked (detachTab s t ra).1 t rb hc.1 hc.2
    refine ⟨he, ?_⟩
    rw [he]
    rfl
  · simp [tryAttachTab, h3]

/-- C7 witness. -/
theorem idempotence_spec_witness :
    detachTab ({ } : St) 9 "x" = (({ } : St), [Effect.debugDetach 9])
    ∧ tryAttachTab
        ({ tabs := [(3, ⟨TabState.connecting, none, none, none⟩)] } : St) 3 none
      = (({ tabs := [(3, ⟨TabState.connecting, none, none, none⟩)] } : St), []) := by
  have h := idempotence_spec ({ } : St)
    ({ tabs := [(3, ⟨TabState.connecting, none, none, none⟩)] } : St)
    9 3 "x" none (by decide) (by intro e he; cases he) (by decide)
  exact ⟨h.1.1, h.2.2⟩

/-- C6 counterexample: tab 7 has a pending reattach timer; a successful
attach by another path (`tryAttachTab`, another path than the timer itself)
tracks the tab but leaves the timer entry in the table — the timer is not
canceled, contradicting the claim that it is removed from the timer table
whenever the tab is successfully attached by any other path. -/
theorem reattach_cancel_counterexample :
    mapHas (tryAttachTab ({ reattachTimers := [(7, 1000)] } : St) 7
      (some "T")).1.tabs 7 = true
    ∧ mapGet (tryAttachTab ({ reattachTimers := [(7, 1000)] } : St) 7
        (some "T")).1.reattachTimers 7 = some 1000 := by
  decide

/-- C6 (amended): a pending reattach timer is canceled whenever the tab is
removed (the removal listener cancels unconditionally before any check);
a successful attach by another path does not remove a pending timer, but
when that timer fires it first deletes its own table entry and, finding the
tab already tracked, returns without attempting any attach and without
rescheduling — so no duplicate attach attempt can race with the timer. -/
theorem reattach_cancel_spec (st st2 : St) (tabId tabId2 delay : Nat)
    (tabExists relayOk : Bool) (o : Option String)
    (htracked : mapHas st2.tabs tabId2 = true) :
    mapGet (onTabRemoved st tabId).1.reattachTimers tabId = none
    ∧ reattachTimerFire st2 tabId2 delay tabExists relayOk o
        = ({ st2 with reattachTimers := mapDelete st2.reattachTimers tabId2 },
           [], none) := by
  constructor
  · unfold onTabRemoved
    by_cases hh : mapHas ({ st with
        reattachTimers := mapDelete st.reattachTimers tabId } : St).tabs tabId
    · simp only [hh, not_true, if_false, if_neg]
      cases hg : mapGet ({ st with
          reattachTimers := mapDelete st.reattachTimers tabId } : St).tabs tabId with
      | none => simp [hg, mapGet_mapDelete_self]
      | some tab =>
        by_cases ht : truthyStr tab.sessionId = true <;>
          simp [hg, ht, mapGet_mapDelete_self]
    · simp [hh, mapGet_mapDelete_self]
  · unfold reattachTimerFire
    by_cases hen : st2.globalEnabled = true
    · cases tabExists with
      | false => simp [hen]
      | true => simp [hen, htracked]
    · simp [hen]

/-- C6 (amended) witness. -/
theorem reattach_cancel_spec_witness :
    mapGet (onTabRemoved ({ reattachTimers := [(7, 1000)] } : St) 7).1.reattachTimers 7
      = none
    ∧ reattachTimerFire
        ({ tabs := [(7, ⟨TabState.connected, some "cb-tab-1", some "T", some 2⟩)],
           reattachTimers := [(7, 1000)] } : St) 7 1000 true true (some "T")
      = (({ tabs := [(7, ⟨TabState.connected, some "cb-tab-1", some "T", some 2⟩)] } : St),
         [], none) := by
  have h := reattach_cancel_spec ({ reattachTimers := [(7, 1000)] } : St)
    ({ tabs := [(7, ⟨TabState.connected, some "cb-tab-1", some "T", some 2⟩)],
       reattachTimers := [(7, 1000)] } : St)
    7 7 1000 true true (some "T") (by decide)
  refine ⟨h.1, ?_⟩
  rw [h.2]
  decide

/-- C2 (code-bug evaluation): from the empty registry, one attach operation
run while the relay transport is down — `chrome.debugger.attach` and
`Target.getTargetInfo` succeed with target id `"T"`, then the
`Target.attachedToTarget` send throws — leaves the primary session index
pointing at tab 1 although tab 1 is no longer tracked: the catch in
`tryAttachTab` (src/background.js:268) removes only the Tab Record, not the
`tabBySession` entry inserted at src/background.js:201.  The claimed
invariant "every key of the primary index maps to a tab currently present"
fails after this sequence. -/
theorem registry_invariant_bug :
    (tryAttachTab ({ relayConnected := false } : St) 1 (some "T")).1.tabs = []
    ∧ (tryAttachTab ({ relayConnected := false } : St) 1
        (some "T")).1.tabBySession = [(mkSession 1, 1)]
    ∧ ¬ (∀ e ∈ (tryAttachTab ({ relayConnected := false } : St) 1
          (some "T")).1.tabBySession,
          mapHas (tryAttachTab ({ relayConnected := false } : St) 1
            (some "T")).1.tabs e.2 = true) := by
  decide

theorem mapGet_mem {α β : Type} [DecidableEq α] (m : List (α × β)) (k : α)
    (v : β) (h : mapGet m k = some v) : (k, v) ∈ m := by
  induction m with
  | nil => simp [mapGet] at h
  | cons e tl ih =>
    by_cases he : e.1 = k
    · simp only [mapGet, he, if_true, Option.some.injEq] at h
      apply List.mem_cons.mpr
      left
      calc (k, v) = (e.1, e.2) := by rw [he, h]
        _ = e := rfl
    · simp only [mapGet, he, if_false, if_neg] at h
      exact List.mem_cons_of_mem e (ih h)

theorem jsOrNat_none (b : Option Nat) : jsOrNat none b = b := rfl

theorem jsOrNat_some_nz (a : Nat) (h : a ≠ 0) (b : Option Nat) :
    jsOrNat (some a) b = some a := by
  simp [jsOrNat, truthyNat, h]

theorem resolve_target_part (st : St) (ptid : Option String)
    (h3 : ∀ e ∈ st.tabs, e.1 ≠ 0)
    (h4 : ∀ e ∈ st.tabs, e.2.targetId ≠ some "") :
    jsOrNat (match ptid with
      | some t => if t ≠ "" then getTabByTargetId st t else none
      | none => none) (firstConnectedTab st)
      = specResolveTarget st ptid := by
  cases ptid with
  | none => simp [jsOrNat_none, specResolveTarget, firstConnectedTab]
  | some t =>
    by_cases ht : t = ""
    · subst ht
      have hf : st.tabs.find? (fun e => e.2.targetId = some "") = none := by
        apply List.find?_eq_none.mpr
        intro e he
        simpa using h4 e he
      simp [jsOrNat_none, specResolveTarget, hf, firstConnectedTab]
    · have hcond : (t ≠ "") = True := by simp [ht]
      simp only [hcond, if_true]
      unfold specResolveTarget
      cases hf : st.tabs.find? (fun e => e.2.targetId = some t) with
      | none => simp [getTabByTargetId, hf, jsOrNat_none, firstConnectedTab]
      | some e =>
        have hnz : e.1 ≠ 0 := h3 e (List.mem_of_find?_eq_some hf)
        simp [getTabByTargetId, hf, jsOrNat_some_nz e.1 hnz, firstConnectedTab]

/-- C3: the destination of a forwarded command is resolved in the claimed
order — explicit session id against the primary then the child index, then
explicit target id against the Tab Records, then the first connected tab —
and routing fails with the "no attached tab" error exactly when none of the
three resolves.  The hypotheses state well-formedness that all reachable
registries satisfy: indexed tab ids are nonzero, index keys are nonempty,
and no record carries an empty target id. -/
theorem routing_spec (st : St) (sid ptid : Option String) (method : String)
    (h1 : ∀ e ∈ st.tabBySession, e.2 ≠ 0 ∧ e.1 ≠ "")
    (h2 : ∀ e ∈ st.childSessionToTab, e.2 ≠ 0 ∧ e.1 ≠ "")
    (h3 : ∀ e ∈ st.tabs, e.1 ≠ 0)
    (h4 : ∀ e ∈ st.tabs, e.2.targetId ≠ some "") :
    resolveForwardTab st sid ptid = specResolve st sid ptid
    ∧ routeForward st method sid ptid
        = (match specResolve st sid ptid with
           | some t => Except.ok t
           | none =>
             Except.error ("No attached tab for method " ++ method)) := by
  have hfc : ∀ (p : Nat × TabRec → Bool) (t : Nat),
      (st.tabs.find? p).map (·.1) = some t → t ≠ 0 := by
    intro p t hp
    cases hf : st.tabs.find? p with
    | none => rw [hf] at hp; simp at hp
    | some e =>
      rw [hf] at hp
      simp only [Option.map_some', Option.some.injEq] at hp
      rw [← hp]
      exact h3 e (List.mem_of_find?_eq_some hf)
  have hzt : ∀ t, specResolveTarget st ptid = some t → t ≠ 0 := by
    intro t ht
    cases hpt : ptid with
    | none =>
      rw [hpt] at ht
      exact hfc _ t ht
    | some u =>
      rw [hpt] at ht
      simp only [specResolveTarget] at ht
      cases hx : (st.tabs.find? (fun e => e.2.targetId = some u)).map (·.1) with
      | none =>
        rw [hx] at ht
        exact hfc _ t ht
      | some tb =>
        rw [hx] at ht
        simp only [Option.some.injEq] at ht
        rw [← ht]
        exact hfc _ tb hx
  have hz : ∀ t, specResolve st sid ptid = some t → t ≠ 0 := by
    intro t ht
    cases hsid : sid with
    | none =>
      rw [hsid] at ht
      simp only [specResolve] at ht
      exact hzt t ht
    | some s =>
      rw [hsid] at ht
      simp only [specResolve] at ht
      cases hm : mapGet st.tabBySession s with
      | some d =>
        rw [hm] at ht
        simp only [Option.some.injEq] at ht
        rw [← ht]
        exact (h1 _ (mapGet_mem _ _ _ hm)).1
      | none =>
        rw [hm] at ht
        cases hc : mapGet st.childSessionToTab s with
        | some c =>
          rw [hc] at ht
          simp only [Option.some.injEq] at ht
          rw [← ht]
          exact (h2 _ (mapGet_mem _ _ _ hc)).1
        | none =>
          rw [hc] at ht
          exact hzt t ht
  have hmain : resolveForwardTab st sid ptid = specResolve st sid ptid := by
    cases sid with
    | none =>
      simp only [resolveForwardTab, specResolve, Option.map_none', jsOrNat_none]
      exact resolve_target_part st ptid h3 h4
    | some s =>
      by_cases hs : s = ""
      · subst hs
        have hb : mapGet st.tabBySession "" = none :=
          mapGet_eq_none _ _ (fun e he => (h1 e he).2)
        have hcn : mapGet st.childSessionToTab "" = none :=
          mapGet_eq_none _ _ (fun e he => (h2 e he).2)
        simp only [resolveForwardTab, specResolve, ne_eq, not_true_eq_false,
          if_false, Option.map_none', jsOrNat_none, hb, hcn]
        exact resolve_target_part st ptid h3 h4
      · have hcond : (s ≠ "") = True := by simp [hs]
        simp only [resolveForwardTab, specResolve, hcond, if_true]
        simp only [getTabBySessionId]
        cases hm : mapGet st.tabBySession s with
        | some d =>
          have hd : d ≠ 0 := (h1 _ (mapGet_mem _ _ _ hm)).1
          simp [truthyNat, hd, jsOrNat]
        | none =>
          simp only [truthyNat, Bool.false_eq_true, if_false]
          cases hc : mapGet st.childSessionToTab s with
          | some c =>
            have hcnz : c ≠ 0 := (h2 _ (mapGet_mem _ _ _ hc)).1
            simp [truthyNat, hcnz, jsOrNat]
          | none =>
            simp only [truthyNat, Bool.false_eq_true, if_false,
              Option.map_none', jsOrNat_none]
            exact resolve_target_part st ptid h3 h4
  refine ⟨hmain, ?_⟩
  unfold routeForward
  rw [hmain]
  cases hr : specResolve st sid ptid with
  | none => rfl
  | some t => simp [hz t hr]

/-- C3 witness: a registry with a main session, a child session and two
connected tabs. -/
theorem routing_spec_witness :
    resolveForwardTab
      ({ tabs := [(1, ⟨TabState.connected, some "cb-tab-1", some "T1", some 2⟩),
                  (2, ⟨TabState.connected, some "cb-tab-2", some "T2", some 3⟩)],
         tabBySession := [("cb-tab-1", 1), ("cb-tab-2", 2)],
         childSessionToTab := [("child-1", 2)] } : St)
      (some "child-1") (some "T1")
      = specResolve
        ({ tabs := [(1, ⟨TabState.connected, some "cb-tab-1", some "T1", some 2⟩),
                    (2, ⟨TabState.connected, some "cb-tab-2", some "T2", some 3⟩)],
           tabBySession := [("cb-tab-1", 1), ("cb-tab-2", 2)],
           childSessionToTab := [("child-1", 2)] } : St)
        (some "child-1") (some "T1") :=
  (routing_spec
    ({ tabs := [(1, ⟨TabState.connected, some "cb-tab-1", some "T1", some 2⟩),
                (2, ⟨TabState.connected, some "cb-tab-2", some "T2", some 3⟩)],
       tabBySession := [("cb-tab-1", 1), ("cb-tab-2", 2)],
       childSessionToTab := [("child-1", 2)] } : St)
    (some "child-1") (some "T1") "Page.navigate"
    (by decide) (by decide) (by decide) (by decide)).1

theorem reannStep_other (probe : Nat → Option String) (acc : St × List Effect)
    (e : Nat × TabRec) (tid : Nat) (h : ¬ e.1 = tid) :
    mapGet (reannStep probe acc e).1.tabs tid = mapGet acc.1.tabs tid
    ∧ (reannStep probe acc e).1.relayConnected = acc.1.relayConnected
    ∧ acc.1.nextSession ≤ (reannStep probe acc e).1.nextSession := by
  unfold reannStep
  by_cases hA : e.2.state ≠ TabState.connected
  · simp [hA]
  · by_cases hB : truthyStr e.2.sessionId = true
    · simp [hA, hB]
    · cases hp : probeResult (probe e.1) with
      | none =>
        simp [hA, hB, hp, mapGet_mapDelete_ne _ _ _ h]
      | some t =>
        by_cases hC : acc.1.relayConnected = true
        · simp [hA, hB, hp, hC, mapGet_mapSet_ne _ _ _ _ h]
        · simp [hA, hB, hp, hC, mapGet_mapDelete_ne _ _ _ h,
            mapGet_mapSet_ne _ _ _ _ h]

theorem reannStep_index (probe : Nat → Option String) (acc : St × List Effect)
    (e : Nat × TabRec) (key : String)
    (hkey : ∀ j, acc.1.nextSession ≤ j → ¬ key = mkSession j) :
    mapGet (reannStep probe acc e).1.tabBySession key
      = mapGet acc.1.tabBySession key := by
  unfold reannStep
  by_cases hA : e.2.state ≠ TabState.connected
  · simp [hA]
  · by_cases hB : truthyStr e.2.sessionId = true
    · simp [hA, hB]
    · cases hp : probeResult (probe e.1) with
      | none => simp [hA, hB, hp]
      | some t =>
        have hne : ¬ mkSession acc.1.nextSession = key :=
          fun hk => hkey acc.1.nextSession (le_refl _) hk.symm
        by_cases hC : acc.1.relayConnected = true
        · simp [hA, hB, hp, hC, mapGet_mapSet_ne _ _ _ _ hne]
        · simp [hA, hB, hp, hC, mapGet_mapSet_ne _ _ _ _ hne]

theorem reannStep_effs (probe : Nat → Option String) (acc : St × List Effect)
    (e : Nat × TabRec) :
    ∃ pre, (reannStep probe acc e).2 = acc.2 ++ pre := by
  unfold reannStep
  by_cases hA : e.2.state ≠ TabState.connected
  · exact ⟨[], by simp [hA]⟩
  · by_cases hB : truthyStr e.2.sessionId = true
    · exact ⟨[], by simp [hA, hB]⟩
    · cases hp : probeResult (probe e.1) with
      | none => exact ⟨[], by simp [hA, hB, hp]⟩
      | some t =>
        by_cases hC : acc.1.relayConnected = true
        · exact ⟨[Effect.send (RelayOut.attachedEvent
            (mkSession acc.1.nextSession) t)], by simp [hA, hB, hp, hC]⟩
        · exact ⟨[], by simp [hA, hB, hp, hC]⟩

theorem reann_fold_preserve (probe : Nat → Option String)
    (L : List (Nat × TabRec)) :
    ∀ (st : St) (effs : List Effect),
    (L.foldl (reannStep probe) (st, effs)).1.relayConnected = st.relayConnected
    ∧ st.nextSession ≤ (L.foldl (reannStep probe) (st, effs)).1.nextSession
    ∧ (∀ tid, tid ∉ L.map (·.1) →
        mapGet (L.foldl (reannStep probe) (st, effs)).1.tabs tid
          = mapGet st.tabs tid)
    ∧ (∀ key, (∀ j, st.nextSession ≤ j → ¬ key = mkSession j) →
        mapGet (L.foldl (reannStep probe) (st, effs)).1.tabBySession key
          = mapGet st.tabBySession key)
    ∧ ∃ extra, (L.foldl (reannStep probe) (st, effs)).2 = effs ++ extra := by
  induction L with
  | nil =>
    intro st effs
    exact ⟨rfl, le_refl _, fun _ _ => rfl, fun _ _ => rfl, [], by simp⟩
  | cons e L' ih =>
    intro st effs
    have hfold : (e :: L').foldl (reannStep probe) (st, effs)
        = L'.foldl (reannStep probe)
            ((reannStep probe (st, effs) e).1, (reannStep probe (st, effs) e).2) := by
      rw [List.foldl_cons]
    have hrelay : (reannStep probe (st, effs) e).1.relayConnected
        = st.relayConnected :=
      (reannStep_other probe (st, effs) e (e.1 + 1) (by omega)).2.1
    have hnext : st.nextSession ≤ (reannStep probe (st, effs) e).1.nextSession :=
      (reannStep_other probe (st, effs) e (e.1 + 1) (by omega)).2.2
    obtain ⟨ih1, ih2, ih3, ih4, ih5⟩ :=
      ih (reannStep probe (st, effs) e).1 (reannStep probe (st, effs) e).2
    rw [hfold]
    refine ⟨by rw [ih1, hrelay], le_trans hnext ih2, ?_, ?_, ?_⟩
    · intro tid htid
      have hne : ¬ e.1 = tid := by
        intro hk
        exact htid (by simp [← hk])
      have htl : tid ∉ L'.map (·.1) := by
        intro hk
        exact htid (by simp [hk])
      rw [ih3 tid htl, (reannStep_other probe (st, effs) e tid hne).1]
    · intro key hkey
      rw [ih4 key (fun j hj => hkey j (le_trans hnext hj)),
        reannStep_index probe (st, effs) e key hkey]
    · obtain ⟨extra, hex⟩ := ih5
      obtain ⟨pre, hpre⟩ := reannStep_effs probe (st, effs) e
      exact ⟨pre ++ extra, by rw [hex, hpre, List.append_assoc]⟩

theorem reannStep_self_success (probe : Nat → Option String)
    (acc : St × List Effect) (tabId : Nat) (r : TabRec) (t : String)
    (hst : r.state = TabState.connected)
    (hsid : r.sessionId = none)
    (hconn : acc.1.relayConnected = true)
    (hp : probeResult (probe tabId) = some t) :
    reannStep probe acc (tabId, r)
      = ({ acc.1 with
            nextSession := acc.1.nextSession + 1,
            tabs := mapSet acc.1.tabs tabId
              { r with sessionId := some (mkSession acc.1.nextSession),
                       targetId := some t },
            tabBySession :=
              mapSet acc.1.tabBySession (mkSession acc.1.nextSession) tabId },
         acc.2 ++ [Effect.send
           (RelayOut.attachedEvent (mkSession acc.1.nextSession) t)]) := by
  unfold reannStep
  simp [hst, hsid, truthyStr, hp, hconn]

theorem reannStep_self_fail (probe : Nat → Option String)
    (acc : St × List Effect) (tabId : Nat) (r : TabRec)
    (hst : r.state = TabState.connected)
    (hsid : r.sessionId = none)
    (hp : probeResult (probe tabId) = none) :
    reannStep probe acc (tabId, r)
      = ({ acc.1 with tabs := mapDelete acc.1.tabs tabId }, acc.2) := by
  unfold reannStep
  simp [hst, hsid, truthyStr, hp]

theorem reann_fold_main (probe : Nat → Option String)
    (L : List (Nat × TabRec)) :
    ∀ (st : St) (effs : List Effect) (tabId : Nat) (r : TabRec),
    (tabId, r) ∈ L → (L.map (·.1)).Nodup →
    mapGet st.tabs tabId = some r →
    r.state = TabState.connected → r.sessionId = none →
    st.relayConnected = true →
    (∀ t, probeResult (probe tabId) = some t →
      ∃ k, st.nextSession ≤ k
        ∧ mapGet (L.foldl (reannStep probe) (st, effs)).1.tabs tabId
            = some { r with sessionId := some (mkSession k), targetId := some t }
        ∧ mapGet (L.foldl (reannStep probe) (st, effs)).1.tabBySession
            (mkSession k) = some tabId
        ∧ Effect.send (RelayOut.attachedEvent (mkSession k) t)
            ∈ (L.foldl (reannStep probe) (st, effs)).2)
    ∧ (probeResult (probe tabId) = none →
        mapGet (L.foldl (reannStep probe) (st, effs)).1.tabs tabId = none) := by
  induction L with
  | nil =>
    intro st effs tabId r hmem
    exact absurd hmem (List.not_mem_nil _)
  | cons e L' ih =>
    intro st effs tabId r hmem hnd hget hst hsid hconn
    rw [List.map_cons] at hnd
    have hndc := List.nodup_cons.mp hnd
    rcases List.mem_cons.mp hmem with hhead | htail
    · -- the visited entry is ours
      have htabnotin : tabId ∉ L'.map (·.1) := by
        have h1 := hndc.1
        rw [← hhead] at h1
        exact h1
      have hfold : (e :: L').foldl (reannStep probe) (st, effs)
          = L'.foldl (reannStep probe) (reannStep probe (st, effs) (tabId, r)) := by
        rw [List.foldl_cons, ← hhead]
      constructor
      · intro t hp
        rw [hfold,
          reannStep_self_success probe (st, effs) tabId r t hst hsid hconn hp]
        obtain ⟨p1, p2, p3, p4, p5⟩ := reann_fold_preserve probe L' _ _
        refine ⟨st.nextSession, le_refl _, ?_, ?_, ?_⟩
        · rw [p3 tabId htabnotin]
          exact mapGet_mapSet_self _ _ _
        · rw [p4 (mkSession st.nextSession) ?_]
          · exact mapGet_mapSet_self _ _ _
          · intro j hj hk
            have := mkSession_injective _ _ hk
            simp only at hj
            omega
        · obtain ⟨extra, hex⟩ := p5
          rw [hex]
          simp
      · intro hp
        rw [hfold, reannStep_self_fail probe (st, effs) tabId r hst hsid hp]
        obtain ⟨p1, p2, p3, p4, p5⟩ := reann_fold_preserve probe L' _ _
        rw [p3 tabId htabnotin]
        exact mapGet_mapDelete_self _ _
    · -- the visited entry is another tab's
      have hne : ¬ e.1 = tabId := by
        intro hk
        apply hndc.1
        rw [hk]
        exact List.mem_map_of_mem (·.1) htail
      have hstep := reannStep_other probe (st, effs) e tabId hne
      have hget' : mapGet (reannStep probe (st, effs) e).1.tabs tabId = some r := by
        rw [hstep.1]
        exact hget
      have hconn' : (reannStep probe (st, effs) e).1.relayConnected = true := by
        rw [hstep.2.1]
        exact hconn
      have hfold : (e :: L').foldl (reannStep probe) (st, effs)
          = L'.foldl (reannStep probe)
              ((reannStep probe (st, effs) e).1,
               (reannStep probe (st, effs) e).2) := by
        rw [List.foldl_cons]
      obtain ⟨ihb, ihc⟩ := ih (reannStep probe (st, effs) e).1
        (reannStep probe (st, effs) e).2 tabId r htail hndc.2 hget' hst hsid hconn'
      rw [hfold]
      constructor
      · intro t hp
        obtain ⟨k, hk1, hk2, hk3, hk4⟩ := ihb t hp
        exact ⟨k, le_trans hstep.2.2 hk1, hk2, hk3, hk4⟩
      · exact ihc

/-- C4: on the happy path of `enableGlobal` after a reconnect, the
reconciliation pass runs to completion before `attachAllTabs` (the effect
stream of `enableGlobal` is the whole reannounce stream followed by the
attach stream); for a Tab Record in state `connected` with no session id,
a successful probe mints a fresh session id `cb-tab-k` with a counter value
`k` no smaller than the current counter — hence distinct from every session
id already in the primary index — stores it in the record together with the
probed target id, re-inserts the primary-index entry for the tab and emits
the synthetic attached event; a failed probe removes the tab from tracking
entirely. -/
theorem reconciliation_spec (probe attach : Nat → Option String)
    (allTabs : List (Option Nat × String)) (st : St) (tabId : Nat) (r : TabRec)
    (hkeys : (st.tabs.map (·.1)).Nodup)
    (hconn : st.relayConnected = true)
    (hmem : mapGet st.tabs tabId = some r)
    (hst : r.state = TabState.connected)
    (hsid : r.sessionId = none)
    (hwf : ∀ e ∈ st.tabBySession, ∃ j, j < st.nextSession ∧ e.1 = mkSession j) :
    (enableGlobal probe attach allTabs st).2
      = (reannounceAllTabs probe st).2
        ++ (attachAllTabs attach allTabs (reannounceAllTabs probe st).1).2
    ∧ (∀ t, probeResult (probe tabId) = some t →
        ∃ k, st.nextSession ≤ k
          ∧ (∀ e ∈ st.tabBySession, ¬ e.1 = mkSession k)
          ∧ mapGet (reannounceAllTabs probe st).1.tabs tabId
              = some { r with sessionId := some (mkSession k),
                              targetId := some t }
          ∧ mapGet (reannounceAllTabs probe st).1.tabBySession (mkSession k)
              = some tabId
          ∧ Effect.send (RelayOut.attachedEvent (mkSession k) t)
              ∈ (reannounceAllTabs probe st).2)
    ∧ (probeResult (probe tabId) = none →
        mapGet (reannounceAllTabs probe st).1.tabs tabId = none) := by
  have hmain := reann_fold_main probe st.tabs st [] tabId r
    (mapGet_mem _ _ _ hmem) hkeys hmem hst hsid hconn
  refine ⟨rfl, ?_, hmain.2⟩
  intro t hp
  obtain ⟨k, hk1, hk2, hk3, hk4⟩ := hmain.1 t hp
  refine ⟨k, hk1, ?_, hk2, hk3, hk4⟩
  intro e he hkey
  obtain ⟨j, hj, hje⟩ := hwf e he
  have := mkSession_injective j k (by rw [← hje, hkey])
  omega

/-- C4 witness: two connected tabs awaiting re-announce, both probes
succeed. -/
theorem reconciliation_spec_witness :
    mapGet (reannounceAllTabs (fun _ => some "T5")
        ({ nextSession := 3,
           tabs := [(5, ⟨TabState.connected, none, some "T5", some 1⟩),
                    (6, ⟨TabState.connected, none, some "T6", some 2⟩)] } : St)).1.tabs 5
      = some ⟨TabState.connected, some (mkSession 3), some "T5", some 1⟩
    ∧ Effect.send (RelayOut.attachedEvent (mkSession 3) "T5")
        ∈ (reannounceAllTabs (fun _ => some "T5")
          ({ nextSession := 3,
             tabs := [(5, ⟨TabState.connected, none, some "T5", some 1⟩),
                      (6, ⟨TabState.connected, none, some "T6", some 2⟩)] } : St)).2 := by
  have h := reconciliation_spec (fun _ => some "T5") (fun _ => none) []
    ({ nextSession := 3,
       tabs := [(5, ⟨TabState.connected, none, some "T5", some 1⟩),
                (6, ⟨TabState.connected, none, some "T6", some 2⟩)] } : St)
    5 ⟨TabState.connected, none, some "T5", some 1⟩
    (by decide) (by decide) (by decide) (by decide) (by decide)
    (by intro e he; cases he)
  obtain ⟨k, hk1, hk2, hk3, hk4, hk5⟩ := h.2.1 "T5" (by decide)
  have hk3' : k = 3 := by
    have h35 : mapHas (reannounceAllTabs (fun _ => some "T5")
        ({ nextSession := 3,
           tabs := [(5, ⟨TabState.connected, none, some "T5", some 1⟩),
                    (6, ⟨TabState.connected, none, some "T6", some 2⟩)] } : St)).1.tabs 5
        = true := by decide
    -- the reannounced record of tab 5 is computable; compare session ids
    have : mapGet (reannounceAllTabs (fun _ => some "T5")
        ({ nextSession := 3,
           tabs := [(5, ⟨TabState.connected, none, some "T5", some 1⟩),
                    (6, ⟨TabState.connected, none, some "T6", some 2⟩)] } : St)).1.tabs 5
        = some ⟨TabState.connected, some (mkSession 3), some "T5", some 1⟩ := by
      decide
    rw [this] at hk3
    have hs : mkSession 3 = mkSession k := by
      have := Option.some.inj hk3
      have h2 := congrArg TabRec.sessionId this
      simpa using h2
    exact (mkSession_injective 3 k hs).symm
  subst hk3'
  exact ⟨hk3, hk5⟩

end OpenClaw
